import Mathlib

/-!
Verification of the chronsync scheduling/execution core.

This file is a shallow embedding of the core of the chronsync daemon
(src/src/scheduler.rs, src/src/config.rs, src/src/commands.rs).  Pure
control flow is translated into Lean functions; the operating system's
behaviour (spawn success, process completion time, captured output, kill
success) is passed in explicitly as data, and the observable side effects
of a run (kill invocations, webhook alerts, the value returned to the
caller) are collected in a record.  Time is modelled in whole seconds as
integers, matching the second granularity of the code.
-/

namespace Chronsync

/-- Instant on the local clock, in whole time units (the code uses
`chrono::Local` timestamps; only differences of instants matter here). -/
abbrev Instant := Int

/-- Embedding of the parsed `cron::Schedule`: the code only ever consumes it
through `schedule.upcoming(chrono::Local).next()`, which, given the current
instant, yields the next fire instant or `None` when the schedule is
exhausted (src/src/scheduler.rs:96). -/
abbrev CronSchedule := Instant → Option Instant

/-- Embedding of `Task` (src/src/config.rs:16-28).  The snapshot's
`config.rs` declares `name`, `cron_schedule`, `command`, `args` and
`timeout`; the fields `webhook_url`, `cwd` and `env` are read from `Task`
values by `register_task` (src/src/scheduler.rs:69-71) and by
`handle_exec_command` (src/src/commands.rs:505-507) but are missing from
the snapshot's struct declaration.  Modelled from the spec: `webhook_url`
is the optional alert destination, `cwd` the optional working-directory
override, and `env` the optional mapping of extra environment variables
(added to, not replacing, the inherited environment). -/
structure Task where
  name : String
  cron_schedule : CronSchedule
  command : String
  args : Option (List String)
  timeout : Option Nat
  webhook_url : Option String
  cwd : Option String
  env : Option (List (String × String))

/-- Embedding of `Config` (src/src/config.rs:30-33): an ordered list of
tasks. -/
structure Config where
  tasks : List Task

/-- Captured output of a completed process (`std::process::Output` as
consumed in src/src/scheduler.rs:201-225): exit code plus the two streams,
already decoded to text (the code's `String::from_utf8_lossy` decoding is
abstracted; no claim depends on byte-level replacement). `exitCode = 0`
models `output.status.success()`. -/
structure Output where
  exitCode : Int
  stdout : String
  stderr : String
  deriving DecidableEq, Repr

/-- Behaviour of a successfully spawned child process, supplied by the
environment: the number of seconds until `wait_with_output` resolves, the
result it resolves to (`Except.error` models a genuine io error from the
wait itself), the OS pid (`child.id()` returns an `Option`), and whether a
`kill -9` directed at it succeeds. -/
structure ProcBehavior where
  finishSecs : Nat
  waitResult : Except String Output
  pid : Option Nat
  killSucceeds : Bool
  deriving Repr

/-- One webhook alert as sent by `send_alert`
(src/src/scheduler.rs:236-258): destination, task name, and message. -/
structure Alert where
  url : String
  task_name : String
  message : String
  deriving DecidableEq, Repr

/-- Ghost classification of which terminal path of `execute_command` an
invocation took (the Rust function returns `()`; these correspond to its
four exit paths: early return on spawn failure at line 151, the synthesized
timeout error at lines 165-194, `Ok(output)` at line 202, and a genuine
error from `wait_with_output` reaching line 227). -/
inductive Outcome where
  | Completed (exitCode : Int) (stdout : String) (stderr : String)
  | TimedOut
  | SpawnFailed (error : String)
  | WaitFailed (error : String)
  deriving DecidableEq, Repr

/-- Observable effects of one `execute_command` invocation: the pids the
code shelled out `kill -9` for, the webhook alerts sent, the ghost outcome
classification, and the value the Rust function returns to its caller
(`()` — the function's return type is the unit type). -/
structure ExecEffects where
  kills : List Nat
  alerts : List Alert
  outcome : Outcome
  ret : Unit
  deriving DecidableEq, Repr

/-- Display of a Rust `ExitStatus` for an exited process, as interpolated
into log and alert messages ("exit status: N"). -/
def statusDisplay (code : Int) : String :=
  "exit status: " ++ toString code

/-- The alert message built at src/src/scheduler.rs:218-222:
`format!("Command exited with status: {}\nStderr: {}", output.status, stderr.trim())`. -/
def failureMessage (code : Int) (stderr : String) : String :=
  "Command exited with status: " ++ statusDisplay code ++ "\nStderr: " ++ stderr.trim

/-- Embedding of the tail of `execute_command` (src/src/scheduler.rs:201-233):
the `match output_result` that logs the result and, for a completed run with
a non-success status and a configured webhook, sends exactly one alert. -/
def finishRun (name : String) (webhook_url : Option String)
    (output_result : Except String Output) : ExecEffects :=
  match output_result with
  | .ok output =>
    if output.exitCode = 0 then
      { kills := [], alerts := [], outcome := .Completed output.exitCode output.stdout output.stderr, ret := () }
    else
      let alerts :=
        match webhook_url with
        | some url => [{ url := url, task_name := name,
                         message := failureMessage output.exitCode output.stderr }]
        | none => []
      { kills := [], alerts := alerts,
        outcome := .Completed output.exitCode output.stdout output.stderr, ret := () }
  | .error e =>
    { kills := [], alerts := [], outcome := .WaitFailed e, ret := () }

/-- Embedding of `TaskScheduler::execute_command`
(src/src/scheduler.rs:122-234).  `spawn` is the environment's answer to
`cmd_to_run.spawn()`: an error produces the early return at line 151
(`SpawnFailed`); otherwise the process behaviour drives the
`time::timeout` race at lines 158-199.  The timeout branch kills the child
by pid via `kill -9` (lines 171-186) and synthesizes an io error, so the
final match takes the error arm and the captured output is never read;
the ghost outcome there is `TimedOut`.  With no timeout the wait result is
awaited directly (line 198). -/
def execute_command (name : String) (command : String) (args : List String)
    (timeout : Option Nat) (webhook_url : Option String)
    (cwd : Option String) (env : Option (List (String × String)))
    (spawn : Except String ProcBehavior) : ExecEffects :=
  match spawn with
  | .error e => { kills := [], alerts := [], outcome := .SpawnFailed e, ret := () }
  | .ok beh =>
    match timeout with
    | some s =>
      if beh.finishSecs ≤ s then
        finishRun name webhook_url beh.waitResult
      else
        { kills := beh.pid.toList, alerts := [], outcome := .TimedOut, ret := () }
    | none =>
      finishRun name webhook_url beh.waitResult

/-- Whether an outcome is a completed run with a non-success exit status. -/
def Outcome.completedNonzero : Outcome → Bool
  | .Completed c _ _ => c != 0
  | _ => false

/-- The alert list the spec prescribes for a given outcome and webhook
configuration: exactly one alert — carrying the task's name and a message
with the exit status and trimmed stderr — when the run completed with a
non-success status and a webhook is configured, and no alert otherwise. -/
def specAlerts (name : String) (webhook_url : Option String) : Outcome → List Alert
  | .Completed c _ e =>
    match webhook_url with
    | some url =>
      if c = 0 then []
      else [{ url := url, task_name := name, message := failureMessage c e }]
    | none => []
  | _ => []

/-- C1: a webhook notification is sent iff the process completed with a
non-success exit status and `webhook_url` is present.  The number of alert
invocations is one exactly when the outcome is `Completed` with a non-zero
exit and a webhook is configured, and zero otherwise — so `SpawnFailed`
and `TimedOut` outcomes, and runs without a webhook, make zero
notification calls — and the alert list is exactly the one alert carrying
the task's name, the exit status and the trimmed stderr. -/
theorem alert_iff_completed_nonzero_with_webhook
    (name command : String) (args : List String)
    (timeout : Option Nat) (webhook_url : Option String)
    (cwd : Option String) (env : Option (List (String × String)))
    (spawn : Except String ProcBehavior) :
    (execute_command name command args timeout webhook_url cwd env spawn).alerts.length
      = (if (execute_command name command args timeout webhook_url cwd env spawn).outcome.completedNonzero
            ∧ webhook_url.isSome then 1 else 0)
    ∧ (execute_command name command args timeout webhook_url cwd env spawn).alerts
      = specAlerts name webhook_url
          (execute_command name command args timeout webhook_url cwd env spawn).outcome := by
  cases spawn with
  | error e => simp [execute_command, Outcome.completedNonzero, specAlerts]
  | ok beh =>
    have hfin : ∀ r : Except String Output,
        (finishRun name webhook_url r).alerts.length
          = (if (finishRun name webhook_url r).outcome.completedNonzero
                ∧ webhook_url.isSome then 1 else 0)
        ∧ (finishRun name webhook_url r).alerts
          = specAlerts name webhook_url (finishRun name webhook_url r).outcome := by
      intro r
      cases r with
      | error e => simp [finishRun, Outcome.completedNonzero, specAlerts]
      | ok output =>
        by_cases hc : output.exitCode = 0
        · cases webhook_url with
          | none => simp [finishRun, Outcome.completedNonzero, specAlerts, hc]
          | some url => simp [finishRun, Outcome.completedNonzero, specAlerts, hc]
        · cases webhook_url with
          | none => simp [finishRun, Outcome.completedNonzero, specAlerts, hc]
          | some url => simp [finishRun, Outcome.completedNonzero, specAlerts, hc]
    cases timeout with
    | none => simpa [execute_command] using hfin beh.waitResult
    | some s =>
      by_cases hs : beh.finishSecs ≤ s
      · simpa [execute_command, if_pos hs] using hfin beh.waitResult
      · simp [execute_command, if_neg hs, Outcome.completedNonzero, specAlerts]

/-- The process invocation assembled by `execute_command` before spawning
(src/src/scheduler.rs:133-145): program and argument list always;
`current_dir` is set only when `cwd` is present; `envs` is applied only
when `env` is present. -/
structure CommandSpec where
  program : String
  args : List String
  cwdOverride : Option String
  envOverrides : List (String × String)
  deriving Repr

/-- Embedding of the invocation-building prefix of `execute_command`
(src/src/scheduler.rs:133-145): start from `Command::new(command).args(args)`,
then `if let Some(dir) = cwd { current_dir(dir) }`, then
`if let Some(envs) = env { envs(envs) }`. -/
def buildCommand (command : String) (args : List String)
    (cwd : Option String) (env : Option (List (String × String))) : CommandSpec :=
  let c0 : CommandSpec :=
    { program := command, args := args, cwdOverride := none, envOverrides := [] }
  let c1 :=
    match cwd with
    | some dir => { c0 with cwdOverride := some dir }
    | none => c0
  match env with
  | some envs => { c1 with envOverrides := envs }
  | none => c1

/-- First-match lookup in an association list of environment variables. -/
def lookupEnv (l : List (String × String)) (k : String) : Option String :=
  (l.find? (fun p => p.1 == k)).map (fun p => p.2)

/-- The environment the spawned child sees under a `CommandSpec`: Rust's
`Command::envs` inserts the given pairs into the inherited environment
map, so an override wins over an inherited variable of the same name and
every other variable is inherited. -/
def childEnv (inherited : List (String × String)) (c : CommandSpec)
    (k : String) : Option String :=
  match lookupEnv c.envOverrides k with
  | some v => some v
  | none => lookupEnv inherited k

/-- Modelled from the spec, for comparison with the source-derived
`buildCommand`/`childEnv`: apply `env` by extending the daemon's own
environment with the given key/value pairs — added keys override
inherited keys of the same name; keys not in `env` are inherited
unchanged. -/
def specChildEnv (inherited : List (String × String))
    (env : Option (List (String × String))) (k : String) : Option String :=
  match env with
  | some envs =>
    match lookupEnv envs k with
    | some v => some v
    | none => lookupEnv inherited k
  | none => lookupEnv inherited k

/-- C2: a `Task` carries the optional `webhook_url`, `cwd` and `env`
fields, and at spawn time the executor applies them as the spec says:
the child's working-directory override equals the task's `cwd` (inherited
when absent), and for every key the child's environment is the daemon's
inherited environment extended by the task's `env` — added keys override
inherited keys of the same name, all other keys are inherited unchanged. -/
theorem task_spawn_applies_cwd_and_env (t : Task)
    (inherited : List (String × String)) (k : String) :
    (buildCommand t.command (t.args.getD []) t.cwd t.env).cwdOverride = t.cwd
    ∧ (buildCommand t.command (t.args.getD []) t.cwd t.env).program = t.command
    ∧ childEnv inherited (buildCommand t.command (t.args.getD []) t.cwd t.env) k
      = specChildEnv inherited t.env k := by
  cases hc : t.cwd <;> cases he : t.env <;>
    simp [buildCommand, childEnv, specChildEnv, lookupEnv, hc, he]

/-- Outcome classification of the shared result-handling tail: a wait
error classifies as `WaitFailed`, a captured output as `Completed` with
its exit code and streams, whatever the alerting branch does. -/
theorem finishRun_outcome (name : String) (w : Option String)
    (r : Except String Output) :
    (finishRun name w r).outcome
      = match r with
        | .ok o => .Completed o.exitCode o.stdout o.stderr
        | .error e => .WaitFailed e := by
  cases r with
  | error e => rfl
  | ok o =>
    by_cases hc : o.exitCode = 0
    · simp [finishRun, hc]
    · cases w <;> simp [finishRun, hc]

/-- Process behaviour of a run that finishes immediately with a clean
exit; used to exhibit a second, different outcome of `execute_command`. -/
def promptExitBehavior : ProcBehavior :=
  { finishSecs := 0
  , waitResult := .ok { exitCode := 0, stdout := "", stderr := "" }
  , pid := some 1
  , killSucceeds := true }

/-- C3 (counterexample): `execute_command` does not return an
`ExecutionResult` value to its caller — the Rust function's return type is
the unit type, so at two concrete invocations whose outcomes differ
(a spawn failure versus a clean completion) the value the caller receives
is identical and therefore carries no outcome information for the caller
to consume. -/
theorem execute_return_carries_no_outcome :
    (execute_command "t" "c" [] none none none none (.error "no such file")).ret
      = (execute_command "t" "c" [] none none none none (.ok promptExitBehavior)).ret
    ∧ (execute_command "t" "c" [] none none none none (.error "no such file")).outcome
      ≠ (execute_command "t" "c" [] none none none none (.ok promptExitBehavior)).outcome := by
  constructor
  · rfl
  · simp [execute_command, promptExitBehavior, finishRun]

/-- C3 (amended): every invocation of `execute_command` takes exactly one
of the four terminal outcome paths — spawn failure, timeout, completion
with captured output, or a wait error — consumes that outcome internally
for its logging and alerting decisions, and returns the unit value to its
caller (the caller merely awaits completion). -/
theorem execute_outcome_exhaustive
    (name command : String) (args : List String)
    (timeout : Option Nat) (webhook_url cwd : Option String)
    (env : Option (List (String × String)))
    (spawn : Except String ProcBehavior) :
    (execute_command name command args timeout webhook_url cwd env spawn).ret = ()
    ∧ ((∃ e, (execute_command name command args timeout webhook_url cwd env spawn).outcome
          = .SpawnFailed e)
       ∨ (execute_command name command args timeout webhook_url cwd env spawn).outcome
          = .TimedOut
       ∨ (∃ c o s, (execute_command name command args timeout webhook_url cwd env spawn).outcome
          = .Completed c o s)
       ∨ (∃ e, (execute_command name command args timeout webhook_url cwd env spawn).outcome
          = .WaitFailed e)) := by
  refine ⟨rfl, ?_⟩
  cases spawn with
  | error e => exact Or.inl ⟨e, rfl⟩
  | ok beh =>
    have hr : ∀ r : Except String Output,
        (∃ c o s, (finishRun name webhook_url r).outcome = .Completed c o s)
        ∨ (∃ e, (finishRun name webhook_url r).outcome = .WaitFailed e) := by
      intro r
      cases r with
      | error e => exact Or.inr ⟨e, by rw [finishRun_outcome]⟩
      | ok o => exact Or.inl ⟨o.exitCode, o.stdout, o.stderr, by rw [finishRun_outcome]⟩
    cases timeout with
    | none =>
      rcases hr beh.waitResult with h | h
      · exact Or.inr (Or.inr (Or.inl (by simpa [execute_command] using h)))
      · exact Or.inr (Or.inr (Or.inr (by simpa [execute_command] using h)))
    | some s =>
      by_cases hs : beh.finishSecs ≤ s
      · rcases hr beh.waitResult with h | h
        · exact Or.inr (Or.inr (Or.inl (by simpa [execute_command, if_pos hs] using h)))
        · exact Or.inr (Or.inr (Or.inr (by simpa [execute_command, if_pos hs] using h)))
      · exact Or.inr (Or.inl (by simp [execute_command, if_neg hs]))

/-- C6: with `timeout = t` set (any `t`, including `0`, which is distinct
from an absent timeout) and a process that has not completed within `t`
seconds, the executor kills the process by its OS pid, classifies the run
as `TimedOut`, sends no alert, and discards the captured output: the
effects are unchanged under any change to the wait result or to whether
the kill succeeded. -/
theorem timeout_kills_and_discards_output
    (name command : String) (args : List String) (t : Nat)
    (webhook_url cwd : Option String) (env : Option (List (String × String)))
    (beh : ProcBehavior) (p : Nat)
    (hlate : t < beh.finishSecs) (hpid : beh.pid = some p) :
    (execute_command name command args (some t) webhook_url cwd env (.ok beh)).outcome
      = .TimedOut
    ∧ (execute_command name command args (some t) webhook_url cwd env (.ok beh)).kills = [p]
    ∧ (execute_command name command args (some t) webhook_url cwd env (.ok beh)).alerts = []
    ∧ (∀ (b : Bool) (r : Except String Output),
        execute_command name command args (some t) webhook_url cwd env
            (.ok { beh with killSucceeds := b, waitResult := r })
          = execute_command name command args (some t) webhook_url cwd env (.ok beh)) := by
  have hn : ¬ beh.finishSecs ≤ t := Nat.not_le.mpr hlate
  refine ⟨?_, ?_, ?_, ?_⟩
  · simp [execute_command, if_neg hn]
  · simp [execute_command, if_neg hn, hpid]
  · simp [execute_command, if_neg hn]
  · intro b r
    simp [execute_command, if_neg hn]

/-- C6 witness: a behaviour that takes 5 seconds under a zero-second
timeout is killed at pid 42 and classified `TimedOut`. -/
theorem timeout_kills_and_discards_output_witness :
    (execute_command "t" "sleep" [] (some 0) none none none
        (.ok { finishSecs := 5
             , waitResult := .ok { exitCode := 0, stdout := "", stderr := "" }
             , pid := some 42
             , killSucceeds := false })).outcome = .TimedOut
    ∧ (execute_command "t" "sleep" [] (some 0) none none none
        (.ok { finishSecs := 5
             , waitResult := .ok { exitCode := 0, stdout := "", stderr := "" }
             , pid := some 42
             , killSucceeds := false })).kills = [42] := by
  have h := timeout_kills_and_discards_output "t" "sleep" [] 0 none none none
      { finishSecs := 5
      , waitResult := .ok { exitCode := 0, stdout := "", stderr := "" }
      , pid := some 42
      , killSucceeds := false } 42 (by decide) rfl
  exact ⟨h.1, h.2.1⟩

/-- A scheduler-owned handle for one running job loop
(`type JobHandle = Arc<Mutex<Option<JoinHandle<()>>>>`,
src/src/scheduler.rs:12).  `gen` is a ghost generation number recording
which reload created the handle (each reload creates genuinely fresh
tokio tasks, so handles of different reloads are distinct objects);
`task` is the task the loop was started for. -/
structure JobHandle where
  gen : Nat
  task : Task

/-- State of `TaskScheduler` (src/src/scheduler.rs:14-16): the vector of
job handles, plus the ghost count of reloads performed so far. -/
structure SchedulerState where
  gen : Nat
  job_handles : List JobHandle

/-- Embedding of `TaskScheduler::new` (src/src/scheduler.rs:19-23): no
running jobs. -/
def TaskScheduler.new : SchedulerState :=
  { gen := 0, job_handles := [] }

/-- Embedding of `TaskScheduler::register_task`
(src/src/scheduler.rs:47-79): spawn a job loop for the task and push its
handle onto the scheduler's vector.  The generation of the current reload
is passed explicitly (ghost). -/
def register_task (g : Nat) (s : SchedulerState) (task : Task) : SchedulerState :=
  { s with job_handles := s.job_handles ++ [{ gen := g, task := task }] }

/-- Embedding of `TaskScheduler::reload_tasks` (src/src/scheduler.rs:25-45):
drain the handle vector, aborting every held handle, then register one
fresh job loop per task of the new configuration, in order. -/
def reload_tasks (s : SchedulerState) (config : Config) : SchedulerState :=
  let g := s.gen + 1
  let drained : SchedulerState := { gen := g, job_handles := [] }
  config.tasks.foldl (register_task g) drained

/-- Registering a list of tasks appends one handle per task, in order. -/
theorem foldl_register_handles (g : Nat) (l : List Task) (s : SchedulerState) :
    (l.foldl (register_task g) s).job_handles
      = s.job_handles ++ l.map (fun t => { gen := g, task := t }) := by
  induction l generalizing s with
  | nil => simp
  | cons t l ih =>
    simp [List.foldl_cons, ih, register_task, List.append_assoc]

/-- Registering tasks does not change the ghost reload generation. -/
theorem foldl_register_gen (g : Nat) (l : List Task) (s : SchedulerState) :
    (l.foldl (register_task g) s).gen = s.gen := by
  induction l generalizing s with
  | nil => rfl
  | cons t l ih => simp [List.foldl_cons, ih, register_task]

/-- After a reload the handle vector is exactly one fresh handle per task
of the new configuration, in order. -/
theorem reload_tasks_handles (s : SchedulerState) (config : Config) :
    (reload_tasks s config).job_handles
      = config.tasks.map (fun t => { gen := s.gen + 1, task := t }) := by
  simp [reload_tasks, foldl_register_handles]

/-- C4: after `reload_tasks` the scheduler holds exactly one handle (one
started job loop) per task of the new configuration, in order; every held
handle was created by this reload (so zero handles reference the previous
configuration's tasks); and reloading with an empty task list leaves the
scheduler holding no handles. -/
theorem reload_replaces_running_set (s : SchedulerState) (config : Config) :
    ((reload_tasks s config).job_handles.map (fun h => h.task)) = config.tasks
    ∧ ((reload_tasks s config).job_handles.all (fun h => h.gen == s.gen + 1)) = true
    ∧ (reload_tasks s { tasks := [] }).job_handles = [] := by
  refine ⟨?_, ?_, ?_⟩
  · simp only [reload_tasks_handles, List.map_map, Function.comp]
    exact List.map_id' config.tasks
  · simp [reload_tasks_handles, List.all_map, Function.comp]
  · simp [reload_tasks_handles]

/-- Outcome of re-reading and re-parsing the configuration file on a
reload signal (`load_config`, src/src/config.rs:35-42). -/
inductive LoadResult where
  | ok (config : Config)
  | err (message : String)

/-- Embedding of the reload arm of the daemon's event loop
(src/src/commands.rs:82-93 and src/src/main.rs:177-189): on a reload
signal the configuration is re-parsed; on success `reload_tasks` is
called with the new configuration, on failure the error is only logged
and the scheduler is not touched. -/
def handleReloadSignal (s : SchedulerState) (load : LoadResult) : SchedulerState :=
  match load with
  | .ok config => reload_tasks s config
  | .err _ => s

/-- C5: when the reload attempt's configuration fails to parse, the
scheduler state — its whole running job set — is left completely
unchanged, and this is the only case in which a reload attempt does not
replace the running set: on every successful parse the reload goes
through, every held handle afterwards is freshly created by that reload,
and the handles are exactly the new configuration's tasks. -/
theorem rejected_config_leaves_jobs_untouched
    (s : SchedulerState) (e : String) (config : Config) :
    handleReloadSignal s (.err e) = s
    ∧ handleReloadSignal s (.ok config) = reload_tasks s config
    ∧ (handleReloadSignal s (.ok config)).gen = s.gen + 1
    ∧ ((handleReloadSignal s (.ok config)).job_handles.all
        (fun h => h.gen == s.gen + 1)) = true
    ∧ ((handleReloadSignal s (.ok config)).job_handles.map (fun h => h.task))
      = config.tasks := by
  refine ⟨rfl, rfl, ?_, ?_, ?_⟩
  · simp [handleReloadSignal, reload_tasks, foldl_register_gen]
  · simp [handleReloadSignal, reload_tasks_handles, List.all_map, Function.comp]
  · simp only [handleReloadSignal, reload_tasks_handles, List.map_map, Function.comp]
    exact List.map_id' config.tasks

/-- Embedding of `chrono::Duration::to_std` as used at
src/src/scheduler.rs:98: converting a negative duration to a standard
duration fails (`none`); a non-negative one succeeds. -/
def chronoToStd (d : Int) : Option Nat :=
  if d < 0 then none else some d.toNat

/-- The sleep duration computed by the job loop
(src/src/scheduler.rs:97-98): `(next_execution - now).to_std().unwrap_or_default()`
— the default standard duration is zero. -/
def sleepDuration (delay : Int) : Nat :=
  (chronoToStd delay).getD 0

/-- What one iteration of the job loop does. -/
inductive IterOutcome where
  | executed (sleptFor : Nat) (fireAt : Instant)
  | terminated
  deriving DecidableEq, Repr

/-- Embedding of one iteration of `run_job_loop`
(src/src/scheduler.rs:93-119): ask the schedule for the next fire instant;
if one exists, sleep for the (clamped) delay and invoke the executor;
if none exists, log a warning and set `job_running = false`, ending the
loop. -/
def run_job_loop_iter (schedule : CronSchedule) (now : Instant) : IterOutcome :=
  match schedule now with
  | some next => .executed (sleepDuration (next - now)) next
  | none => .terminated

/-- Embedding of the whole `while job_running` loop of `run_job_loop`
(src/src/scheduler.rs:91-119): `clock` is the stream of values
`chrono::Local::now()` takes at successive iteration heads; the loop
records one `(sleep, fire)` pair per executor invocation and stops at the
first iteration whose schedule yields no next occurrence. -/
def run_job_loop (schedule : CronSchedule) : List Instant → List (Nat × Instant)
  | [] => []
  | now :: rest =>
    match run_job_loop_iter schedule now with
    | .executed d next => (d, next) :: run_job_loop schedule rest
    | .terminated => []

/-- C7: a task whose schedule yields no next occurrence at the current
time terminates its job loop in that very iteration — the executor is not
invoked then, and no matter how the clock would continue, the loop
performs zero further executions (termination is permanent). -/
theorem exhausted_schedule_terminates_loop
    (schedule : CronSchedule) (now : Instant) (rest : List Instant)
    (h : schedule now = none) :
    run_job_loop_iter schedule now = .terminated
    ∧ run_job_loop schedule (now :: rest) = [] := by
  constructor
  · simp [run_job_loop_iter, h]
  · simp [run_job_loop, run_job_loop_iter, h]

/-- C7 witness: a schedule that never yields an occurrence ends the loop
at once, with zero executions, on a concrete clock. -/
theorem exhausted_schedule_terminates_loop_witness :
    run_job_loop_iter (fun _ => none) 0 = .terminated
    ∧ run_job_loop (fun _ => none) (0 :: [1, 2, 3]) = [] :=
  exhausted_schedule_terminates_loop (fun _ => none) 0 [1, 2, 3] rfl

/-- C10: when the next fire instant is not strictly after the current
time (a non-positive delay), the conversion of the delay to a sleep
duration falls back to zero rather than failing, and the iteration still
executes the command — with a zero sleep — rather than skipping it. -/
theorem nonpositive_delay_sleeps_zero_and_executes
    (schedule : CronSchedule) (now next : Instant)
    (hnext : schedule now = some next) (hle : next ≤ now) :
    sleepDuration (next - now) = 0
    ∧ run_job_loop_iter schedule now = .executed 0 next := by
  have hz : sleepDuration (next - now) = 0 := by
    have hd : next - now ≤ 0 := sub_nonpos.mpr hle
    rcases lt_or_eq_of_le hd with hlt | heq
    · simp [sleepDuration, chronoToStd, hlt]
    · simp [sleepDuration, chronoToStd, heq]
  exact ⟨hz, by simp [run_job_loop_iter, hnext, hz]⟩

/-- C10 witness: a fire instant 3 units in the past yields a zero sleep
and an immediate execution. -/
theorem nonpositive_delay_sleeps_zero_and_executes_witness :
    sleepDuration ((2 : Int) - 5) = 0
    ∧ run_job_loop_iter (fun _ => some 2) 5 = .executed 0 2 :=
  nonpositive_delay_sleeps_zero_and_executes (fun _ => some 2) 5 2 rfl (by decide)

/-- Observable effects of `handle_exec_command` once the configuration is
loaded (src/src/commands.rs:494-519): which tasks the executor was
invoked for, whether the non-zero-exit path (`process::exit(1)`) was
taken, and the list of available task names printed on the not-found
path.  The function constructs no `TaskScheduler` and touches no job
handles — its effects are exhausted by this record. -/
structure ExecCmdEffects where
  executorCalls : List Task
  exitNonzero : Bool
  listedAvailable : Option (List String)

/-- Embedding of the task lookup and dispatch of `handle_exec_command`
(src/src/commands.rs:494-519): find the first task whose name equals the
requested name; execute it if found, otherwise report the task as not
found, list the available names, and exit non-zero. -/
def handle_exec_command (config : Config) (task_name : String) : ExecCmdEffects :=
  match config.tasks.find? (fun t => t.name == task_name) with
  | some task =>
    { executorCalls := [task], exitNonzero := false, listedAvailable := none }
  | none =>
    { executorCalls := [], exitNonzero := true
    , listedAvailable := some (config.tasks.map (fun t => t.name)) }

/-- A successful `find?` splits the list at the first satisfying element. -/
theorem find?_eq_some_split {α : Type} (p : α → Bool) (l : List α) (a : α)
    (h : l.find? p = some a) :
    ∃ l1 l2, l = l1 ++ a :: l2 ∧ p a = true ∧ ∀ x ∈ l1, p x = false := by
  induction l with
  | nil => simp [List.find?] at h
  | cons b l ih =>
    by_cases hb : p b
    · have hba : b = a := by
        rw [List.find?_cons_of_pos _ hb] at h
        exact Option.some.inj h
      subst hba
      exact ⟨[], l, rfl, hb, by intro x hx; simp at hx⟩
    · rw [List.find?_cons_of_neg _ hb] at h
      obtain ⟨l1, l2, hsplit, hpa, hprev⟩ := ih h
      refine ⟨b :: l1, l2, by rw [hsplit]; rfl, hpa, ?_⟩
      intro x hx
      rcases List.mem_cons.mp hx with hx | hx
      · rw [hx]; exact Bool.of_not_eq_true hb
      · exact hprev x hx

/-- C8: when the requested name matches no task of the configuration, the
manual exec entry point makes zero executor calls, lists exactly the
available task names, and takes the non-zero-exit path (and, having no
scheduler in scope, starts and affects no scheduler-owned job loop);
when a task is executed, it is the first task in configuration order
bearing the requested name. -/
theorem exec_unknown_name_fails_without_executing
    (config : Config) (n : String) :
    ((∀ t ∈ config.tasks, t.name ≠ n) →
      handle_exec_command config n
        = { executorCalls := [], exitNonzero := true
          , listedAvailable := some (config.tasks.map (fun t => t.name)) })
    ∧ (∀ task, task ∈ (handle_exec_command config n).executorCalls →
        (handle_exec_command config n).exitNonzero = false
        ∧ task.name = n
        ∧ ∃ l1 l2, config.tasks = l1 ++ task :: l2 ∧ ∀ x ∈ l1, x.name ≠ n) := by
  constructor
  · intro hnone
    have hfind : config.tasks.find? (fun t => t.name == n) = none := by
      rw [List.find?_eq_none]
      intro t ht
      simpa using hnone t ht
    simp [handle_exec_command, hfind]
  · intro task htask
    cases hfind : config.tasks.find? (fun t => t.name == n) with
    | none =>
      rw [handle_exec_command, hfind] at htask
      simp at htask
    | some t0 =>
      rw [handle_exec_command, hfind] at htask
      have hteq : task = t0 := by simpa using htask
      subst hteq
      obtain ⟨l1, l2, hsplit, hpa, hprev⟩ :=
        find?_eq_some_split (fun t => t.name == n) config.tasks task hfind
      refine ⟨by simp [handle_exec_command, hfind], by simpa using hpa, l1, l2, hsplit, ?_⟩
      intro x hx
      simpa using hprev x hx

/-- Tasks used by concrete witnesses: two distinct names on a trivial
schedule. -/
def witnessTaskA : Task :=
  { name := "alpha", cron_schedule := fun _ => none, command := "echo"
  , args := none, timeout := none, webhook_url := none, cwd := none, env := none }

/-- Second witness task. -/
def witnessTaskB : Task :=
  { name := "beta", cron_schedule := fun _ => none, command := "true"
  , args := none, timeout := none, webhook_url := none, cwd := none, env := none }

/-- C8 witness: on a two-task configuration, looking up a name that
matches nothing exits non-zero with both names listed and no executor
call, and looking up the first task's name executes it. -/
theorem exec_unknown_name_fails_without_executing_witness :
    handle_exec_command { tasks := [witnessTaskA, witnessTaskB] } "gamma"
      = { executorCalls := [], exitNonzero := true
        , listedAvailable := some ["alpha", "beta"] }
    ∧ (handle_exec_command { tasks := [witnessTaskA, witnessTaskB] } "alpha").exitNonzero
      = false := by
  constructor
  · have h := (exec_unknown_name_fails_without_executing
        { tasks := [witnessTaskA, witnessTaskB] } "gamma").1
      (by
        intro t ht
        rcases List.mem_cons.mp ht with ht | ht
        · rw [ht]; simp [witnessTaskA]
        · rcases List.mem_cons.mp ht with ht | ht
          · rw [ht]; simp [witnessTaskB]
          · simp at ht)
    simpa [witnessTaskA, witnessTaskB] using h
  · exact ((exec_unknown_name_fails_without_executing
        { tasks := [witnessTaskA, witnessTaskB] } "alpha").2 witnessTaskA
      (by simp [handle_exec_command, witnessTaskA, List.find?])).1

/-- One job loop as seen by the concurrency model: the ghost reload
generation that started it, the name of its task, and whether its handle
has been aborted (`handle.abort()`, src/src/scheduler.rs:33). -/
structure LoopProc where
  gen : Nat
  taskName : String
  cancelled : Bool

/-- Global state of the concurrency model: the ghost reload counter, all
loops created so far, and the generations of the child OS processes
currently in flight. -/
structure Sys where
  curGen : Nat
  loops : List LoopProc
  procs : List Nat

/-- Embedding of `reload_tasks` at the concurrency level
(src/src/scheduler.rs:25-45): every held handle is aborted — marking its
loop cancelled, which takes effect at the loop's next suspension point —
and only after that drain is one fresh loop per task of the new
configuration registered.  Aborting a loop does not touch its child OS
process (`kill_on_drop` is never set on the spawned commands), so the
in-flight process set is unchanged. -/
def reloadSys (s : Sys) (config : Config) : Sys :=
  let g := s.curGen + 1
  { curGen := g
  , loops := s.loops.map (fun l => { l with cancelled := true })
      ++ config.tasks.map (fun t => { gen := g, taskName := t.name, cancelled := false })
  , procs := s.procs }

/-- Events observable in an interleaved run of the daemon. -/
inductive SysEvent where
  | exec (gen : Nat) (taskName : String)
  | reload (config : Config)
  | procDone (gen : Nat)

/-- Interleaving small-step semantics of the scheduler and its loops.
A loop may begin an execution only while its handle is not aborted
(cancellation is cooperative: an aborted loop never reaches its next
`Running` state, per tokio's `JoinHandle::abort` semantics, which cancels
the task at its next suspension point); a reload performs `reloadSys`;
an in-flight child process may finish at any time, whether or not the
loop that spawned it has been cancelled. -/
inductive SysStep : Sys → SysEvent → Sys → Prop where
  | exec (s : Sys) (l : LoopProc) (hl : l ∈ s.loops) (hc : l.cancelled = false) :
      SysStep s (.exec l.gen l.taskName) { s with procs := l.gen :: s.procs }
  | reload (s : Sys) (config : Config) :
      SysStep s (.reload config) (reloadSys s config)
  | procDone (s : Sys) (g : Nat) (hg : g ∈ s.procs) :
      SysStep s (.procDone g) { s with procs := s.procs.erase g }

/-- A finite interleaved run, recording its event trace. -/
inductive SysSteps : Sys → List SysEvent → Sys → Prop where
  | nil (s : Sys) : SysSteps s [] s
  | cons (s1 s2 s3 : Sys) (e : SysEvent) (evs : List SysEvent)
      (hstep : SysStep s1 e s2) (hrest : SysSteps s2 evs s3) :
      SysSteps s1 (e :: evs) s3

/-- Invariant: the reload counter has passed `bound`, and every loop of
generation `bound` or older is cancelled. -/
def GenRetired (bound : Nat) (s : Sys) : Prop :=
  bound ≤ s.curGen ∧ ∀ l ∈ s.loops, l.cancelled = false → bound < l.gen

/-- Every step of the system preserves `GenRetired`: executions and
process completions leave the loop set alone, and a further reload
cancels everything old and registers loops of a strictly larger
generation. -/
theorem sysStep_preserves_genRetired (bound : Nat) (s1 s2 : Sys) (e : SysEvent)
    (h : SysStep s1 e s2) (hb : GenRetired bound s1) : GenRetired bound s2 := by
  cases h with
  | exec l hl hc => exact hb
  | procDone g hg => exact hb
  | reload config =>
    refine ⟨Nat.le_succ_of_le hb.1, ?_⟩
    intro l hl hcanc
    rcases List.mem_append.mp hl with hl | hl
    · obtain ⟨l0, _, hmap⟩ := List.mem_map.mp hl
      rw [← hmap] at hcanc
      simp at hcanc
    · obtain ⟨t, _, hmap⟩ := List.mem_map.mp hl
      rw [← hmap]
      exact Nat.lt_succ_of_le hb.1

/-- In any run from a state where generation `bound` is retired, no
execution event of generation `bound` ever occurs. -/
theorem sysSteps_no_retired_exec (bound : Nat) (s1 s2 : Sys)
    (evs : List SysEvent) (h : SysSteps s1 evs s2) (hb : GenRetired bound s1) :
    ∀ n, SysEvent.exec bound n ∉ evs := by
  induction h with
  | nil s => intro n hmem; simp at hmem
  | cons t1 t2 t3 e evs hstep hrest ih =>
    intro n hmem
    have hb2 := sysStep_preserves_genRetired bound t1 t2 e hstep hb
    rcases List.mem_cons.mp hmem with heq | hmem'
    · cases hstep with
      | exec l hl hc =>
        have hgen : bound = l.gen := by injection heq
        have hlt := hb.2 l hl hc
        rw [← hgen] at hlt
        exact Nat.lt_irrefl bound hlt
      | reload config => exact SysEvent.noConfusion heq
      | procDone g hg => exact SysEvent.noConfusion heq
    · exact ih hb2 n hmem'

/-- C9: after `reload(C1)` immediately followed by `reload(C2)`, every
loop started for C1 (generation `s0.curGen + 1`) is cancelled, no
execution from a C1 loop occurs anywhere in any subsequent run — so no
C1 execution interleaves with C2's loops once the second reload has
registered them — and neither reload touches the in-flight process set
(cancellation only prevents the next scheduling iteration; it does not
preempt a running child process). -/
theorem reload_twice_stops_first_generation
    (s0 : Sys) (c1 c2 : Config) (evs : List SysEvent) (s3 : Sys)
    (h : SysSteps (reloadSys (reloadSys s0 c1) c2) evs s3) :
    (∀ n, SysEvent.exec (s0.curGen + 1) n ∉ evs)
    ∧ (∀ l ∈ (reloadSys (reloadSys s0 c1) c2).loops,
        l.gen = s0.curGen + 1 → l.cancelled = true)
    ∧ (reloadSys (reloadSys s0 c1) c2).procs = s0.procs := by
  have hretired : GenRetired (s0.curGen + 1) (reloadSys (reloadSys s0 c1) c2) := by
    refine ⟨Nat.le_succ_of_le (Nat.le_refl _), ?_⟩
    intro l hl hcanc
    rcases List.mem_append.mp hl with hl | hl
    · obtain ⟨l0, _, hmap⟩ := List.mem_map.mp hl
      rw [← hmap] at hcanc
      simp at hcanc
    · obtain ⟨t, _, hmap⟩ := List.mem_map.mp hl
      rw [← hmap]
      exact Nat.lt_succ_of_le (Nat.le_refl _)
  refine ⟨sysSteps_no_retired_exec _ _ _ _ h hretired, ?_, rfl⟩
  intro l hl hgen
  by_contra hcanc
  have hfalse : l.cancelled = false := by
    cases hc : l.cancelled
    · rfl
    · exact absurd hc hcanc
  have := hretired.2 l hl hfalse
  rw [hgen] at this
  exact Nat.lt_irrefl _ this

/-- C9 witness: from the concrete state reached by reloading an empty
scheduler with one task and then with another, the empty run contains no
generation-1 execution, the generation-1 loop is cancelled, and the
process set is untouched. -/
theorem reload_twice_stops_first_generation_witness :
    (∀ n, SysEvent.exec 1 n ∉ ([] : List SysEvent))
    ∧ (∀ l ∈ (reloadSys (reloadSys { curGen := 0, loops := [], procs := [] }
          { tasks := [witnessTaskA] }) { tasks := [witnessTaskB] }).loops,
        l.gen = 1 → l.cancelled = true)
    ∧ (reloadSys (reloadSys { curGen := 0, loops := [], procs := [] }
          { tasks := [witnessTaskA] }) { tasks := [witnessTaskB] }).procs = [] :=
  reload_twice_stops_first_generation
    { curGen := 0, loops := [], procs := [] }
    { tasks := [witnessTaskA] } { tasks := [witnessTaskB] } [] _
    (SysSteps.nil _)

end Chronsync
